import Mathlib

/-!
Verification of the trace-extraction and scoring-adapter core of the
`open-source-bedrock-agent-evaluation` repository.

The Python code under scrutiny walks loosely-typed, JSON-like trace events.
We embed those values as the inductive type `Json` below (`Json.obj` models a
Python `dict` with string keys; real trace dictionaries have unique keys, and
every operation reads the first binding of a key).  Python operations that can
raise (`in` on a non-container, subscripting, `.get`, `.split`, iteration,
using an unhashable value as a dictionary key) are embedded as `Except String`
computations whose error value models the raised exception's message.
-/

inductive Json where
  | null
  | bool (b : Bool)
  | num (n : Int)
  | str (s : String)
  | arr (elems : List Json)
  | obj (kvs : List (String × Json))

mutual

def jsonDecEq : (a b : Json) → Decidable (a = b)
  | .null, .null => isTrue rfl
  | .bool a, .bool b =>
      match inferInstanceAs (Decidable (a = b)) with
      | isTrue h => isTrue (by rw [h])
      | isFalse h => isFalse (by intro hc; cases hc; exact h rfl)
  | .num a, .num b =>
      match inferInstanceAs (Decidable (a = b)) with
      | isTrue h => isTrue (by rw [h])
      | isFalse h => isFalse (by intro hc; cases hc; exact h rfl)
  | .str a, .str b =>
      match inferInstanceAs (Decidable (a = b)) with
      | isTrue h => isTrue (by rw [h])
      | isFalse h => isFalse (by intro hc; cases hc; exact h rfl)
  | .arr a, .arr b =>
      match jsonDecEqList a b with
      | isTrue h => isTrue (by rw [h])
      | isFalse h => isFalse (by intro hc; cases hc; exact h rfl)
  | .obj a, .obj b =>
      match jsonDecEqKV a b with
      | isTrue h => isTrue (by rw [h])
      | isFalse h => isFalse (by intro hc; cases hc; exact h rfl)
  | .null, .bool _ | .null, .num _ | .null, .str _ | .null, .arr _ | .null, .obj _
  | .bool _, .null | .bool _, .num _ | .bool _, .str _ | .bool _, .arr _ | .bool _, .obj _
  | .num _, .null | .num _, .bool _ | .num _, .str _ | .num _, .arr _ | .num _, .obj _
  | .str _, .null | .str _, .bool _ | .str _, .num _ | .str _, .arr _ | .str _, .obj _
  | .arr _, .null | .arr _, .bool _ | .arr _, .num _ | .arr _, .str _ | .arr _, .obj _
  | .obj _, .null | .obj _, .bool _ | .obj _, .num _ | .obj _, .str _ | .obj _, .arr _ =>
      isFalse (by intro hc; cases hc)

def jsonDecEqList : (a b : List Json) → Decidable (a = b)
  | [], [] => isTrue rfl
  | [], _ :: _ => isFalse (by intro hc; cases hc)
  | _ :: _, [] => isFalse (by intro hc; cases hc)
  | x :: xs, y :: ys =>
      match jsonDecEq x y with
      | isTrue h1 =>
          match jsonDecEqList xs ys with
          | isTrue h2 => isTrue (by rw [h1, h2])
          | isFalse h2 => isFalse (by intro hc; cases hc; exact h2 rfl)
      | isFalse h1 => isFalse (by intro hc; cases hc; exact h1 rfl)

def jsonDecEqKV : (a b : List (String × Json)) → Decidable (a = b)
  | [], [] => isTrue rfl
  | [], _ :: _ => isFalse (by intro hc; cases hc)
  | _ :: _, [] => isFalse (by intro hc; cases hc)
  | (k1, v1) :: xs, (k2, v2) :: ys =>
      match inferInstanceAs (Decidable (k1 = k2)) with
      | isTrue hk =>
          match jsonDecEq v1 v2 with
          | isTrue h1 =>
              match jsonDecEqKV xs ys with
              | isTrue h2 => isTrue (by rw [hk, h1, h2])
              | isFalse h2 => isFalse (by intro hc; cases hc; exact h2 rfl)
          | isFalse h1 => isFalse (by intro hc; cases hc; exact h1 rfl)
      | isFalse hk => isFalse (by intro hc; cases hc; exact hk rfl)

end

instance : DecidableEq Json := jsonDecEq

/-- First binding of a key in a dictionary's key/value list. -/
def lookupKV : List (String × Json) → String → Option Json
  | [], _ => none
  | (k', v) :: rest, k => if k' = k then some v else lookupKV rest k

/- Python `str()` of an embedded value (mutually defined with `repr()`,
which quotes strings and is used for elements of containers). -/
mutual

def pyStr : Json → String
  | .null => "None"
  | .bool true => "True"
  | .bool false => "False"
  | .num n => toString n
  | .str s => s
  | .arr xs => "[" ++ String.intercalate ", " (pyReprList xs) ++ "]"
  | .obj kvs => "\x7b" ++ String.intercalate ", " (pyReprKV kvs) ++ "\x7d"

def pyRepr : Json → String
  | .null => "None"
  | .bool true => "True"
  | .bool false => "False"
  | .num n => toString n
  | .str s => "\x27" ++ s ++ "\x27"
  | .arr xs => "[" ++ String.intercalate ", " (pyReprList xs) ++ "]"
  | .obj kvs => "\x7b" ++ String.intercalate ", " (pyReprKV kvs) ++ "\x7d"

def pyReprList : List Json → List String
  | [] => []
  | x :: xs => pyRepr x :: pyReprList xs

def pyReprKV : List (String × Json) → List String
  | [] => []
  | (k, v) :: kvs => ("\x27" ++ k ++ "\x27: " ++ pyRepr v) :: pyReprKV kvs

end

/-- Whether one character list occurs as a prefix of another. -/
def isPrefixChars : List Char → List Char → Bool
  | [], _ => true
  | _ :: _, [] => false
  | a :: as, b :: bs => a = b && isPrefixChars as bs

/-- Whether one character list occurs contiguously inside another
(Python `needle in haystack` on strings). -/
def isSubstrChars (needle : List Char) : List Char → Bool
  | [] => isPrefixChars needle []
  | c :: rest => isPrefixChars needle (c :: rest) || isSubstrChars needle rest

/-- Python `key in container`.  Dictionaries test key membership, strings test
substring containment, lists test element membership; anything else raises
`TypeError`. -/
def pyContains : Json → String → Except String Bool
  | .obj kvs, k => .ok (kvs.any fun p => decide (p.1 = k))
  | .str s, k => .ok (isSubstrChars k.data s.data)
  | .arr xs, k => .ok (xs.any fun x => decide (x = .str k))
  | _, _ => .error "TypeError: argument of type is not iterable"

/-- Python `container[key]` with a string key: only dictionaries support it. -/
def pyGet : Json → String → Except String Json
  | .obj kvs, k =>
      match lookupKV kvs k with
      | some v => .ok v
      | none => .error ("KeyError: " ++ k)
  | .str _, _ => .error "TypeError: string indices must be integers"
  | .arr _, _ => .error "TypeError: list indices must be integers"
  | _, _ => .error "TypeError: object is not subscriptable"

/-- Python `d.get(key, default)`: only dictionaries have `.get`. -/
def pyGetD : Json → String → Json → Except String Json
  | .obj kvs, k, d => .ok ((lookupKV kvs k).getD d)
  | _, _, _ => .error "AttributeError: object has no attribute get"

/-- Total variant of dictionary `.get`, used to state theorems. -/
def jGetD (j : Json) (k : String) (d : Json) : Json :=
  match j with
  | .obj kvs => (lookupKV kvs k).getD d
  | _ => d

/-- Python iteration: lists yield elements, dictionaries yield their keys,
strings yield one-character strings; anything else raises `TypeError`. -/
def pyIter : Json → Except String (List Json)
  | .arr xs => .ok xs
  | .obj kvs => .ok (kvs.map fun p => .str p.1)
  | .str s => .ok (s.data.map fun c => .str (String.mk [c]))
  | _ => .error "TypeError: object is not iterable"

/-- Split a character list on a separator character, Python
`s.split(sep)` style (so `[]` splits to `[[]]`). -/
def splitChars (sep : Char) : List Char → List (List Char)
  | [] => [[]]
  | c :: cs =>
      match splitChars sep cs with
      | [] => [[]]
      | g :: gs => if c = sep then [] :: g :: gs else (c :: g) :: gs

/-- Python `value.split("/")`: only strings have `.split`. -/
def pySplit (j : Json) (sep : Char) : Except String (List String)
  :=
  match j with
  | .str s => .ok ((splitChars sep s.data).map String.mk)
  | _ => .error "AttributeError: object has no attribute split"

/-- Whether a value may be used as a Python dictionary key. -/
def pyHashable : Json → Bool
  | .arr _ => false
  | .obj _ => false
  | _ => true

/-- Message of the exception raised when an unhashable value is used as a
dictionary key. -/
def unhashableMsg : String := "TypeError: unhashable type"

/-- Python truthiness of an embedded value. -/
def pyTruthy : Json → Bool
  | .null => false
  | .bool b => b
  | .num n => decide (n ≠ 0)
  | .str s => decide (s ≠ "")
  | .arr l => decide (l ≠ [])
  | .obj l => decide (l ≠ [])

/-!
Embedding of `ToolUsageExtractor.extract_from_trace`
(`src/helpers/tool_usage_extractor.py`).

The running state is the `result` dictionary of the source: an
insertion-ordered mapping `agent_id -> AgentRecord` (modelled as an
association list, since Python dictionaries preserve insertion order) together
with the flat list of tool calls.  Each trace event is processed inside a
`try`/`except` boundary; an exception is modelled as a `some message` second
component, carrying the state reached at the point of the exception (earlier
in-place mutations of `result` survive a later exception in the same event).
-/

/-- One entry of an agent's `tool_calls` sub-list. -/
structure AgentToolCall where
  tool_name : Json
  parameters : Json
  timestamp : Json
deriving DecidableEq

/-- One agent's record in `result["agents"]`. -/
structure AgentRecord where
  agent_id : Json
  agent_alias_id : Json
  agent_name : Json
  tool_calls : List AgentToolCall
deriving DecidableEq

/-- One entry of the flat `result["tool_calls"]` list. -/
structure ToolCallRecord where
  agent_id : Json
  tool_name : Json
  parameters : Json
  timestamp : Json
deriving DecidableEq

/-- The `result` dictionary built by one extraction pass. -/
structure UsageReport where
  agents : List (Json × AgentRecord)
  tool_calls : List ToolCallRecord
deriving DecidableEq

/-- First agent record stored under a key (Python dictionary lookup). -/
def lookupA : List (Json × AgentRecord) → Json → Option AgentRecord
  | [], _ => none
  | (k, rec) :: rest, i => if k = i then some rec else lookupA rest i

/-- State-plus-caught-exception result of one processing step. -/
abbrev StepR := UsageReport × Option String

/-- Reads performed by the direct-identity step: presence of `agentId`, then
`trace_event["agentId"]`, `trace_event.get("agentAliasId", "")` and
`trace_event.get("collaboratorName", f"Agent-{agent_id}")`. -/
def step1read (ev : Json) : Except String (Option (Json × Json × Json)) :=
  match pyContains ev "agentId" with
  | .error m => .error m
  | .ok false => .ok none
  | .ok true =>
    match pyGet ev "agentId" with
    | .error m => .error m
    | .ok aid =>
      match pyGetD ev "agentAliasId" (.str "") with
      | .error m => .error m
      | .ok al =>
        match pyGetD ev "collaboratorName" (.str ("Agent-" ++ pyStr aid)) with
        | .error m => .error m
        | .ok nm => .ok (some (aid, al, nm))

/-- Direct-identity step: `if agent_id not in result["agents"]` (which raises
on an unhashable key) followed by create-if-absent. -/
def step1 (r : UsageReport) (ev : Json) : StepR :=
  match step1read ev with
  | .error m => (r, some m)
  | .ok none => (r, none)
  | .ok (some (aid, al, nm)) =>
      if pyHashable aid then
        (if r.agents.any (fun p => decide (p.1 = aid)) then r
         else { r with agents := r.agents ++ [(aid, ⟨aid, al, nm, []⟩)] }, none)
      else (r, some unhashableMsg)

/-- Exception produced by the direct-identity step (state-independent). -/
def step1err (ev : Json) : Option String :=
  match step1read ev with
  | .error m => some m
  | .ok none => none
  | .ok (some (aid, _, _)) => if pyHashable aid then none else some unhashableMsg

/-- Reads performed on one caller-chain entry: presence of `agentAliasArn`,
the ARN string, its split on `/`, and the derived id/alias when the split has
at least two segments. -/
def callerRead (c : Json) : Except String (Option (String × Json)) :=
  match pyContains c "agentAliasArn" with
  | .error m => .error m
  | .ok false => .ok none
  | .ok true =>
    match pyGet c "agentAliasArn" with
    | .error m => .error m
    | .ok arn =>
      match pySplit arn '/' with
      | .error m => .error m
      | .ok parts =>
          if 2 ≤ parts.length then
            .ok (some (parts.getD (parts.length - 2) "",
              if 2 < parts.length then .str (parts.getD (parts.length - 1) "")
              else .str ""))
          else .ok none

/-- Create-if-absent for a caller-chain agent (`agent_name` defaults to
`f"Agent-{caller_agent_id}"`). -/
def insertCaller (r : UsageReport) (cid : String) (al : Json) : UsageReport :=
  if r.agents.any (fun p => decide (p.1 = .str cid)) then r
  else { r with
    agents := r.agents ++ [(.str cid, ⟨.str cid, al, .str ("Agent-" ++ cid), []⟩)] }

/-- The `for caller in caller_chain` loop; an exception aborts the rest of the
loop (and the rest of the event) but keeps earlier insertions. -/
def step2loop (r : UsageReport) : List Json → StepR
  | [] => (r, none)
  | c :: rest =>
      match callerRead c with
      | .error m => (r, some m)
      | .ok none => step2loop r rest
      | .ok (some (cid, al)) => step2loop (insertCaller r cid al) rest

/-- Caller-chain step: presence of `callerChain`, its value, iteration, and
the per-entry loop. -/
def step2 (r : UsageReport) (ev : Json) : StepR :=
  match pyContains ev "callerChain" with
  | .error m => (r, some m)
  | .ok false => (r, none)
  | .ok true =>
      match pyGet ev "callerChain" with
      | .error m => (r, some m)
      | .ok cc =>
          match pyIter cc with
          | .error m => (r, some m)
          | .ok callers => step2loop r callers

/-- First exception of the caller loop (state-independent). -/
def callersErr : List Json → Option String
  | [] => none
  | c :: rest =>
      match callerRead c with
      | .error m => some m
      | .ok _ => callersErr rest

/-- Exception produced by the caller-chain step (state-independent). -/
def step2err (ev : Json) : Option String :=
  match pyContains ev "callerChain" with
  | .error m => some m
  | .ok false => none
  | .ok true =>
      match pyGet ev "callerChain" with
      | .error m => some m
      | .ok cc =>
          match pyIter cc with
          | .error m => some m
          | .ok callers => callersErr callers

/-- Descent `trace_event["trace"]["orchestrationTrace"]["invocationInput"]
["actionGroupInvocationInput"]`, guarded at each level by an `in` check;
`ok none` means some level is absent (no tool call), `error` models an
exception raised by a check or subscript. -/
def getAGI (ev : Json) : Except String (Option Json) :=
  match pyContains ev "trace" with
  | .error m => .error m
  | .ok false => .ok none
  | .ok true =>
    match pyGet ev "trace" with
    | .error m => .error m
    | .ok tr =>
      match pyContains tr "orchestrationTrace" with
      | .error m => .error m
      | .ok false => .ok none
      | .ok true =>
        match pyGet tr "orchestrationTrace" with
        | .error m => .error m
        | .ok orc =>
          match pyContains orc "invocationInput" with
          | .error m => .error m
          | .ok false => .ok none
          | .ok true =>
            match pyGet orc "invocationInput" with
            | .error m => .error m
            | .ok ii =>
              match pyContains ii "actionGroupInvocationInput" with
              | .error m => .error m
              | .ok false => .ok none
              | .ok true =>
                match pyGet ii "actionGroupInvocationInput" with
                | .error m => .error m
                | .ok agi => .ok (some agi)

/-- Shape classification of an `actionGroupInvocationInput`: the `function`
branch wins, otherwise `apiPath`, otherwise `continue` (no tool call).
Returns the `(tool_name, parameters)` pair read by the source. -/
def shapeOfAGI (agi : Json) : Except String (Option (Json × Json)) :=
  match pyContains agi "function" with
  | .error m => .error m
  | .ok true =>
    match pyGetD agi "function" .null with
    | .error m => .error m
    | .ok tn =>
      match pyGetD agi "parameters" (.obj []) with
      | .error m => .error m
      | .ok ps => .ok (some (tn, ps))
  | .ok false =>
    match pyContains agi "apiPath" with
    | .error m => .error m
    | .ok true =>
      match pyGetD agi "apiPath" .null with
      | .error m => .error m
      | .ok tn =>
        match pyGetD agi "requestBody" (.obj []) with
        | .error m => .error m
        | .ok ps => .ok (some (tn, ps))
    | .ok false => .ok none

/-- The tool-call record built for one event (a function of the event alone):
descent, shape classification, then `trace_event.get("agentId", "unknown")`
and `trace_event.get("timestamp", "")`. -/
def toolCallOfEvent (ev : Json) : Except String (Option ToolCallRecord) :=
  match getAGI ev with
  | .error m => .error m
  | .ok none => .ok none
  | .ok (some agi) =>
    match shapeOfAGI agi with
    | .error m => .error m
    | .ok none => .ok none
    | .ok (some (tn, ps)) =>
      match pyGetD ev "agentId" (.str "unknown") with
      | .error m => .error m
      | .ok aid =>
        match pyGetD ev "timestamp" (.str "") with
        | .error m => .error m
        | .ok ts => .ok (some ⟨aid, tn, ps, ts⟩)

/-- Append a call to the sub-list of the (first) record stored under a key. -/
def appendAgentCall : List (Json × AgentRecord) → Json → AgentToolCall →
    List (Json × AgentRecord)
  | [], _, _ => []
  | (k, rec) :: rest, aid, c =>
      if k = aid then (k, { rec with tool_calls := rec.tool_calls ++ [c] }) :: rest
      else (k, rec) :: appendAgentCall rest aid c

/-- Tool-call step: build the record, append it to the flat list, then
attribute it to its agent's sub-list only when `tool_call["agent_id"]` is
already a key of `result["agents"]` (the membership test raising on an
unhashable id, after the flat append). -/
def step3 (r : UsageReport) (ev : Json) : StepR :=
  match toolCallOfEvent ev with
  | .error m => (r, some m)
  | .ok none => (r, none)
  | .ok (some tc) =>
      let r1 : UsageReport := { r with tool_calls := r.tool_calls ++ [tc] }
      let c : AgentToolCall := ⟨tc.tool_name, tc.parameters, tc.timestamp⟩
      if pyHashable tc.agent_id then
        if r1.agents.any (fun p => decide (p.1 = tc.agent_id)) then
          ({ r1 with agents := appendAgentCall r1.agents tc.agent_id c }, none)
        else (r1, none)
      else (r1, some unhashableMsg)

/-- Body of the per-event `try` block: the three steps in source order, each
later step skipped once an exception occurred. -/
def processEvent (r : UsageReport) (ev : Json) : StepR :=
  match step1 r ev with
  | (r1, some m) => (r1, some m)
  | (r1, none) =>
    match step2 r1 ev with
    | (r2, some m) => (r2, some m)
    | (r2, none) => step3 r2 ev

/-- One iteration of the event loop: a caught exception is logged as the pair
(message, offending event) and processing continues. -/
def extractStep (acc : UsageReport × List (String × Json)) (ev : Json) :
    UsageReport × List (String × Json) :=
  match processEvent acc.1 ev with
  | (r, none) => (r, acc.2)
  | (r, some m) => (r, acc.2 ++ [(m, ev)])

/-- `extract_from_trace`, also returning the log of caught exceptions. -/
def extract_from_trace_logged (events : List Json) :
    UsageReport × List (String × Json) :=
  events.foldl extractStep (⟨[], []⟩, [])

/-- `ToolUsageExtractor.extract_from_trace`: total over every event list. -/
def extract_from_trace (events : List Json) : UsageReport :=
  (extract_from_trace_logged events).1

/-- State-only event fold, used to reason about the extractor. -/
def extractR (r : UsageReport) (events : List Json) : UsageReport :=
  events.foldl (fun s e => (processEvent s e).1) r

/-- The flat-list contribution of one event, as a function of the event
alone: nothing if an exception aborts the event before the tool-call append,
otherwise whatever `toolCallOfEvent` produced. -/
def eventFlatCall (ev : Json) : Option ToolCallRecord :=
  if (step1err ev).isSome then none
  else if (step2err ev).isSome then none
  else
    match toolCallOfEvent ev with
    | .ok (some tc) => some tc
    | _ => none

def projCall (tc : ToolCallRecord) : AgentToolCall :=
  ⟨tc.tool_name, tc.parameters, tc.timestamp⟩

def subOrderInv (r : UsageReport) : Prop :=
  ∀ i rec, lookupA r.agents i = some rec →
    rec.tool_calls.Sublist
      ((r.tool_calls.filter fun tc => decide (tc.agent_id = i)).map projCall)

/-- Agent-record metadata (everything except the growing sub-list). -/
def metaEq (a b : AgentRecord) : Prop :=
  b.agent_id = a.agent_id ∧ b.agent_alias_id = a.agent_alias_id ∧
    b.agent_name = a.agent_name

/-- A direct-identity trace event (`agentId` + metadata). -/
def mkIdent (a : String) (al nm : Json) : Json :=
  Json.obj [("agentId", .str a), ("agentAliasId", al), ("collaboratorName", nm)]

/-- An identity-only trace event. -/
def mkIdOnly (a : String) : Json := Json.obj [("agentId", .str a)]

/-- A function-shape tool-call event with no `agentId`. -/
def mkToolNoAgent (t : String) (ps : List (String × Json)) : Json :=
  Json.obj [("trace", .obj [("orchestrationTrace", .obj [("invocationInput",
    .obj [("actionGroupInvocationInput",
      .obj [("function", .str t), ("parameters", .obj ps)])])])])]

/-- A function-shape tool-call event carrying an `agentId`. -/
def mkToolFor (a t : String) (ps : List (String × Json)) : Json :=
  Json.obj [("agentId", .str a),
    ("trace", .obj [("orchestrationTrace", .obj [("invocationInput",
      .obj [("actionGroupInvocationInput",
        .obj [("function", .str t), ("parameters", .obj ps)])])])])]

/-- The segments of an ARN-like string, Python `arn.split("/")`. -/
def arnParts (s : String) : List String := (splitChars '/' s.data).map String.mk

/-- Second-to-last ARN segment (the derived caller agent id). -/
def arnAgentId (s : String) : String :=
  (arnParts s).getD ((arnParts s).length - 2) ""

/-- Last ARN segment when there are more than two segments, else `""`
(the derived caller alias id). -/
def arnAlias (s : String) : Json :=
  if 2 < (arnParts s).length then .str ((arnParts s).getD ((arnParts s).length - 1) "")
  else .str ""

/-- A trace event whose only content is a one-entry caller chain. -/
def mkChainEv (s : String) : Json :=
  Json.obj [("callerChain", .arr [.obj [("agentAliasArn", .str s)]])]

/-- Sample function-shape event used as a concrete test input. -/
def evFunSample : Json :=
  Json.obj [("agentId", Json.str "A"),
    ("trace", Json.obj [("orchestrationTrace", Json.obj [("invocationInput",
      Json.obj [("actionGroupInvocationInput",
        Json.obj [("function", Json.str "search"),
          ("parameters", Json.obj [("q", Json.str "x")])])])])])]

/-- Sample event whose invocation input has neither shape key. -/
def evJunkSample : Json :=
  Json.obj [("trace", Json.obj [("orchestrationTrace",
    Json.obj [("invocationInput", Json.obj [("actionGroupInvocationInput",
      Json.obj [("junk", Json.str "z")])])])])]

/-- Sample event whose invocation input carries both shape keys. -/
def evBothSample : Json :=
  Json.obj [("trace", Json.obj [("orchestrationTrace",
    Json.obj [("invocationInput", Json.obj [("actionGroupInvocationInput",
      Json.obj [("function", Json.str "f1"), ("apiPath", Json.str "/p1"),
        ("requestBody", Json.obj [("b", Json.num 1)])])])])])]

/-!
Embedding of `DeepevalHelper` (`src/helpers/deepeval_helper.py`).  The
DeepEval `ToolCall` object is constructed with only its `name` argument, so it
is modelled as a one-field structure.
-/

/-- DeepEval `ToolCall(name=...)` as constructed by the adapters. -/
structure DEToolCall where
  name : Json
deriving DecidableEq

/-- Whether a value is a Python dictionary. -/
def isDict : Json → Bool
  | .obj _ => true
  | _ => false

/-- Python `d[k] = v` on a dictionary: update in place if the key exists
(keeping its position), else append. -/
def pyDictSet (m : List (Json × Json)) (k v : Json) : List (Json × Json) :=
  if m.any fun p => decide (p.1 = k) then
    m.map fun p => if p.1 = k then (k, v) else p
  else m ++ [(k, v)]

/-- Loop of `convert_to_deepeval_tool_calls`: per record, read
`tool_name` (default `""`) and `parameters` (default `[]`, unused), then
append a `ToolCall` carrying only the name. -/
def convertGT : List Json → List DEToolCall → Except String (List DEToolCall)
  | [], acc => .ok acc
  | tc :: rest, acc =>
    match pyGetD tc "tool_name" (.str "") with
    | .error m => .error m
    | .ok tn =>
      match pyGetD tc "parameters" (.arr []) with
      | .error m => .error m
      | .ok _ => convertGT rest (acc ++ [⟨tn⟩])

/-- `DeepevalHelper.convert_to_deepeval_tool_calls`. -/
def convert_to_deepeval_tool_calls (tool_calls : List Json) :
    Except String (List DEToolCall) :=
  convertGT tool_calls []

/-- The `for param in call.get("parameters", [])` loop: build a name→value
dictionary (last occurrence wins), raising on an unhashable name; the built
dictionary is then discarded by the caller. -/
def buildParamMap : List Json → List (Json × Json) →
    Except String (List (Json × Json))
  | [], m => .ok m
  | p :: rest, m =>
    match pyGetD p "name" .null with
    | .error msg => .error msg
    | .ok n =>
      match pyGetD p "value" .null with
      | .error msg => .error msg
      | .ok v =>
          if pyHashable n then buildParamMap rest (pyDictSet m n v)
          else .error unhashableMsg

/-- Loop of `convert_bedrock_format_to_deepeval_tool_calls`: per record,
reduce the `parameters` triple list to a mapping (discarded), then append a
`ToolCall` carrying only `tool_name` (default `""`). -/
def convertBR : List Json → List DEToolCall → Except String (List DEToolCall)
  | [], acc => .ok acc
  | call :: rest, acc =>
    match pyGetD call "parameters" (.arr []) with
    | .error m => .error m
    | .ok psJ =>
      match pyIter psJ with
      | .error m => .error m
      | .ok ps =>
        match buildParamMap ps [] with
        | .error m => .error m
        | .ok _ =>
          match pyGetD call "tool_name" (.str "") with
          | .error m => .error m
          | .ok tn => convertBR rest (acc ++ [⟨tn⟩])

/-- `DeepevalHelper.convert_bedrock_format_to_deepeval_tool_calls`. -/
def convert_bedrock_format_to_deepeval_tool_calls (bedrock_tool_calls : List Json) :
    Except String (List DEToolCall) :=
  convertBR bedrock_tool_calls []

/-- Well-formedness of one Bedrock-format record's `parameters` field: absent,
or a list of dictionaries whose `name` values are hashable. -/
def bedrockParamsOK (x : Json) : Bool :=
  match x with
  | .obj kvs =>
      match lookupKV kvs "parameters" with
      | none => true
      | some (.arr l) => l.all fun e => isDict e && pyHashable (jGetD e "name" .null)
      | some _ => false
  | _ => false

/-!
Embedding of `TopicAdherenceEvaluator._convert_trace_to_messages` and the
pre-scoring part of `TopicAdherenceEvaluator.evaluate_response`
(`src/evaluators/agents/topic_adherence_evaluator.py`).  RAGAS messages are
modelled by `RMessage`; a RAGAS `ToolCall` is a `(name, args)` pair of
rendered strings.  Exceptions in this code path are NOT caught per event: any
error propagates to `evaluate_response`, whose outer handler re-raises with
added context.  Scoring itself (the remote LLM call) lies outside the model:
`evaluate_response_sample` returns the `MultiTurnSample` handed to the scorer.
-/

/-- A RAGAS message as built by `_convert_trace_to_messages`. -/
inductive RMessage where
  | human (content : String)
  | ai (content : String) (tool_calls : List (String × List (String × String)))
  | tool (content : String)
deriving DecidableEq

/-- Python `d.items()`: only dictionaries have `.items`. -/
def pyItems : Json → Except String (List (String × Json))
  | .obj kvs => .ok kvs
  | _ => .error "AttributeError: object has no attribute items"

/-- Invocation part of one event: an assistant turn carrying one tool call,
produced when `invocationInput.actionGroupInvocationInput` is present. -/
def invocMsgs (orc : Json) : Except String (List RMessage) :=
  match pyContains orc "invocationInput" with
  | .error m => .error m
  | .ok false => .ok []
  | .ok true =>
    match pyGet orc "invocationInput" with
    | .error m => .error m
    | .ok ii =>
      match pyContains ii "actionGroupInvocationInput" with
      | .error m => .error m
      | .ok false => .ok []
      | .ok true =>
        match pyGet ii "actionGroupInvocationInput" with
        | .error m => .error m
        | .ok ai_ =>
          match pyGetD ai_ "function" (.str "") with
          | .error m => .error m
          | .ok nm =>
            match pyGetD ai_ "parameters" (.obj []) with
            | .error m => .error m
            | .ok ps =>
              match pyItems ps with
              | .error m => .error m
              | .ok items =>
                .ok [.ai "Using tool to process request"
                  [(pyStr nm, items.map fun p => (p.1, pyStr p.2))]]

/-- Observation part of one event: a tool-output turn, produced when
`observation.actionGroupInvocationOutput` is present. -/
def obsMsgs (orc : Json) : Except String (List RMessage) :=
  match pyContains orc "observation" with
  | .error m => .error m
  | .ok false => .ok []
  | .ok true =>
    match pyGet orc "observation" with
    | .error m => .error m
    | .ok obs =>
      match pyContains obs "actionGroupInvocationOutput" with
      | .error m => .error m
      | .ok false => .ok []
      | .ok true =>
        match pyGet obs "actionGroupInvocationOutput" with
        | .error m => .error m
        | .ok o =>
          match pyGetD o "text" (.str "") with
          | .error m => .error m
          | .ok txt => .ok [.tool (pyStr txt)]

/-- Messages contributed by one event of the loop: nothing without a `trace`
key, else descend `event["trace"]["trace"]["orchestrationTrace"]` and emit the
invocation turn (if any) followed by the observation turn (if any). -/
def eventMsgs (event : Json) : Except String (List RMessage) :=
  match pyContains event "trace" with
  | .error m => .error m
  | .ok false => .ok []
  | .ok true =>
    match pyGet event "trace" with
    | .error m => .error m
    | .ok t1 =>
      match pyGet t1 "trace" with
      | .error m => .error m
      | .ok trace_obj =>
        match pyContains trace_obj "orchestrationTrace" with
        | .error m => .error m
        | .ok false => .ok []
        | .ok true =>
          match pyGet trace_obj "orchestrationTrace" with
          | .error m => .error m
          | .ok orc =>
            match invocMsgs orc with
            | .error m => .error m
            | .ok l1 =>
              match obsMsgs orc with
              | .error m => .error m
              | .ok l2 => .ok (l1 ++ l2)

/-- The `for event in full_trace` loop, appending each event's messages. -/
def goEvents : List Json → List RMessage → Except String (List RMessage)
  | [], acc => .ok acc
  | e :: rest, acc =>
    match eventMsgs e with
    | .error m => .error m
    | .ok l => goEvents rest (acc ++ l)

/-- Per-event messages of a whole stream, concatenated in order. -/
def eventsMsgs : List Json → Except String (List RMessage)
  | [] => .ok []
  | e :: rest =>
    match eventMsgs e with
    | .error m => .error m
    | .ok l =>
      match eventsMsgs rest with
      | .error m => .error m
      | .ok ls => .ok (l ++ ls)

/-- `TopicAdherenceEvaluator._convert_trace_to_messages`: the human turn, the
event loop, then the final assistant answer when truthy. -/
def convert_trace_to_messages (question : Json) (full_trace : Json)
    (agent_answer : Json) : Except String (List RMessage) :=
  match pyIter full_trace with
  | .error m => .error m
  | .ok events =>
    match goEvents events [.human (pyStr question)] with
    | .error m => .error m
    | .ok msgs =>
        .ok (msgs ++ (if pyTruthy agent_answer then [.ai (pyStr agent_answer) []]
          else []))

/-- A trace-loop event wrapping an orchestration trace
(`event["trace"]["trace"]["orchestrationTrace"]`). -/
def mkTraceEvent (inner : List (String × Json)) : Json :=
  Json.obj [("trace", .obj [("trace", .obj [("orchestrationTrace", .obj inner)])])]

/-- An `invocationInput` entry with a function-shape action-group input. -/
def mkInvocIn (nm : Json) (ps : List (String × Json)) : String × Json :=
  ("invocationInput", .obj [("actionGroupInvocationInput",
    .obj [("function", nm), ("parameters", .obj ps)])])

/-- An `observation` entry with an action-group output text. -/
def mkObs (t : Json) : String × Json :=
  ("observation", .obj [("actionGroupInvocationOutput", .obj [("text", t)])])

/-- The scorer input built by `evaluate_response` just before scoring. -/
structure MultiTurnSample where
  user_input : List RMessage
  reference_topics : List String
deriving DecidableEq

/-- Body of the `try` block of `evaluate_response`, up to construction of the
`MultiTurnSample` handed to the scorer: read and render the ground-truth
topics, read `full_trace` and `agent_response`, raise `ValueError` when the
topic list is empty, then reconstruct the messages and build the sample. -/
def evaluate_response_try (question : Json) (metadata : Json) :
    Except String MultiTurnSample :=
  match pyGet metadata "ground_truth" with
  | .error m => .error m
  | .ok gt =>
    match pyGetD gt "topics" (.arr []) with
    | .error m => .error m
    | .ok topicsJ =>
      match pyIter topicsJ with
      | .error m => .error m
      | .ok topicsL =>
        let topics := topicsL.map pyStr
        match pyGetD metadata "full_trace" (.arr []) with
        | .error m => .error m
        | .ok full_trace =>
          match pyGetD metadata "agent_response" (.str "") with
          | .error m => .error m
          | .ok agent_response =>
            if topics.isEmpty then
              .error "No topics provided in ground truth for evaluation"
            else
              match convert_trace_to_messages question full_trace agent_response with
              | .error m => .error m
              | .ok msgs => .ok ⟨msgs, topics⟩

/-- `TopicAdherenceEvaluator.evaluate_response` up to the scoring call: the
outer `except` re-raises every error with added context, so no sample reaches
the scorer on a failed precondition. -/
def evaluate_response_sample (question metadata : Json) :
    Except String MultiTurnSample :=
  match evaluate_response_try question metadata with
  | .error m => .error ("Error evaluating topic adherence: " ++ m)
  | .ok s => .ok s

theorem step1_fst_tool_calls (r : UsageReport) (ev : Json) :
    (step1 r ev).1.tool_calls = r.tool_calls := by
  rcases h : step1read ev with m | o
  · simp [step1, h]
  · rcases o with _ | ⟨aid, al, nm⟩
    · simp [step1, h]
    · by_cases hh : pyHashable aid
      · simp only [step1, h, hh, if_true]
        split <;> simp
      · simp [step1, h, hh]

theorem step1_snd_eq (r : UsageReport) (ev : Json) :
    (step1 r ev).2 = step1err ev := by
  rcases h : step1read ev with m | o
  · simp [step1, step1err, h]
  · rcases o with _ | ⟨aid, al, nm⟩
    · simp [step1, step1err, h]
    · by_cases hh : pyHashable aid
      · simp only [step1, step1err, h, hh, if_true]
      · simp [step1, step1err, h, hh]

theorem insertCaller_tool_calls (r : UsageReport) (cid : String) (al : Json) :
    (insertCaller r cid al).tool_calls = r.tool_calls := by
  unfold insertCaller
  split <;> rfl

theorem step2loop_fst_tool_calls (cs : List Json) :
    ∀ r : UsageReport, (step2loop r cs).1.tool_calls = r.tool_calls := by
  induction cs with
  | nil => intro r; rfl
  | cons c rest ih =>
      intro r
      rcases h : callerRead c with m | o
      · simp [step2loop, h]
      · rcases o with _ | ⟨cid, al⟩
        · simp [step2loop, h, ih r]
        · simp [step2loop, h, ih, insertCaller_tool_calls]

theorem step2loop_snd_eq (cs : List Json) :
    ∀ r : UsageReport, (step2loop r cs).2 = callersErr cs := by
  induction cs with
  | nil => intro r; rfl
  | cons c rest ih =>
      intro r
      rcases h : callerRead c with m | o
      · simp [step2loop, callersErr, h]
      · rcases o with _ | ⟨cid, al⟩
        · simp [step2loop, callersErr, h, ih r]
        · simp [step2loop, callersErr, h, ih]

theorem step2_fst_tool_calls (r : UsageReport) (ev : Json) :
    (step2 r ev).1.tool_calls = r.tool_calls := by
  rcases h : pyContains ev "callerChain" with m | b
  · simp [step2, h]
  · rcases b with _ | _
    · simp [step2, h]
    · rcases h2 : pyGet ev "callerChain" with m | cc
      · simp [step2, h, h2]
      · rcases h3 : pyIter cc with m | callers
        · simp [step2, h, h2, h3]
        · simp [step2, h, h2, h3, step2loop_fst_tool_calls]

theorem step2_snd_eq (r : UsageReport) (ev : Json) :
    (step2 r ev).2 = step2err ev := by
  rcases h : pyContains ev "callerChain" with m | b
  · simp [step2, step2err, h]
  · rcases b with _ | _
    · simp [step2, step2err, h]
    · rcases h2 : pyGet ev "callerChain" with m | cc
      · simp [step2, step2err, h, h2]
      · rcases h3 : pyIter cc with m | callers
        · simp [step2, step2err, h, h2, h3]
        · simp [step2, step2err, h, h2, h3, step2loop_snd_eq]

theorem step3_fst_tool_calls (r : UsageReport) (ev : Json) :
    (step3 r ev).1.tool_calls = r.tool_calls ++
      (match toolCallOfEvent ev with
       | .ok (some tc) => [tc]
       | _ => []) := by
  rcases h : toolCallOfEvent ev with m | o
  · simp [step3, h]
  · rcases o with _ | tc
    · simp [step3, h]
    · by_cases hh : pyHashable tc.agent_id
      · simp only [step3, h, hh, if_true]
        split <;> simp
      · simp [step3, h, hh]

theorem processEvent_fst_tool_calls (r : UsageReport) (ev : Json) :
    (processEvent r ev).1.tool_calls = r.tool_calls ++ (eventFlatCall ev).toList := by
  unfold processEvent eventFlatCall
  rcases h1 : step1 r ev with ⟨r1, m1⟩
  have e1 : m1 = step1err ev := by rw [← step1_snd_eq r ev, h1]
  have f1 : r1.tool_calls = r.tool_calls := by rw [← step1_fst_tool_calls r ev, h1]
  rcases m1 with _ | m
  · rcases h2 : step2 r1 ev with ⟨r2, m2⟩
    have e2 : m2 = step2err ev := by rw [← step2_snd_eq r1 ev, h2]
    have f2 : r2.tool_calls = r1.tool_calls := by rw [← step2_fst_tool_calls r1 ev, h2]
    rcases m2 with _ | m
    · simp only [h1, h2, ← e1, ← e2, Option.isSome_none, Bool.false_eq_true, if_false,
        step3_fst_tool_calls, f2, f1]
      rcases h3 : toolCallOfEvent ev with m | o
      · simp
      · rcases o with _ | tc <;> simp
    · simp [h1, h2, ← e1, ← e2, f1, f2]
  · simp [h1, ← e1, f1]

theorem extractStep_fst (acc : UsageReport × List (String × Json)) (ev : Json) :
    (extractStep acc ev).1 = (processEvent acc.1 ev).1 := by
  unfold extractStep
  rcases h : processEvent acc.1 ev with ⟨r, mo⟩
  rcases mo <;> simp

theorem extractStep_snd (acc : UsageReport × List (String × Json)) (ev : Json) :
    (extractStep acc ev).2 = acc.2 ++
      (match (processEvent acc.1 ev).2 with
       | some m => [(m, ev)]
       | none => []) := by
  unfold extractStep
  rcases h : processEvent acc.1 ev with ⟨r, mo⟩
  rcases mo <;> simp

theorem foldl_extractStep_fst (events : List Json) :
    ∀ acc : UsageReport × List (String × Json),
      (events.foldl extractStep acc).1 = extractR acc.1 events := by
  induction events with
  | nil => intro acc; rfl
  | cons ev rest ih =>
      intro acc
      simp only [List.foldl_cons, ih, extractStep_fst, extractR]

theorem extract_eq_extractR (events : List Json) :
    extract_from_trace events = extractR ⟨[], []⟩ events := by
  unfold extract_from_trace extract_from_trace_logged
  exact foldl_extractStep_fst events _

theorem extractR_cons (r : UsageReport) (ev : Json) (rest : List Json) :
    extractR r (ev :: rest) = extractR (processEvent r ev).1 rest := rfl

theorem extractR_append (r : UsageReport) (l1 l2 : List Json) :
    extractR r (l1 ++ l2) = extractR (extractR r l1) l2 := by
  unfold extractR
  exact List.foldl_append _ _ l1 l2

theorem extractR_tool_calls (events : List Json) :
    ∀ r : UsageReport,
      (extractR r events).tool_calls = r.tool_calls ++ events.filterMap eventFlatCall := by
  induction events with
  | nil => intro r; simp [extractR]
  | cons ev rest ih =>
      intro r
      rw [extractR_cons, ih, processEvent_fst_tool_calls, List.filterMap_cons]
      rcases eventFlatCall ev <;> simp

theorem foldl_extractStep_log_mono (events : List Json) :
    ∀ acc : UsageReport × List (String × Json),
      ∃ l, (events.foldl extractStep acc).2 = acc.2 ++ l := by
  induction events with
  | nil => intro acc; exact ⟨[], by simp⟩
  | cons ev rest ih =>
      intro acc
      obtain ⟨l, hl⟩ := ih (extractStep acc ev)
      rw [List.foldl_cons, hl, extractStep_snd]
      refine ⟨(match (processEvent acc.1 ev).2 with
        | some m => [(m, ev)]
        | none => []) ++ l, by simp⟩

theorem logged_append (l1 l2 : List Json) :
    extract_from_trace_logged (l1 ++ l2) =
      l2.foldl extractStep (extract_from_trace_logged l1) := by
  unfold extract_from_trace_logged
  exact List.foldl_append _ _ l1 l2

theorem lookupA_append_single (ags : List (Json × AgentRecord)) (k : Json)
    (rec0 : AgentRecord) (i : Json) :
    lookupA (ags ++ [(k, rec0)]) i =
      match lookupA ags i with
      | some rec => some rec
      | none => if k = i then some rec0 else none := by
  induction ags with
  | nil => simp [lookupA]
  | cons p rest ih =>
      obtain ⟨k', rec'⟩ := p
      by_cases hk : k' = i <;> simp [lookupA, hk, ih]

theorem lookupA_appendAgentCall (ags : List (Json × AgentRecord)) (aid : Json)
    (c : AgentToolCall) (i : Json) :
    lookupA (appendAgentCall ags aid c) i =
      if i = aid then
        (lookupA ags i).map
          (fun rec => { rec with tool_calls := rec.tool_calls ++ [c] })
      else lookupA ags i := by
  induction ags with
  | nil => simp [appendAgentCall, lookupA]
  | cons p rest ih =>
      obtain ⟨k, rec⟩ := p
      by_cases hka : k = aid
      · subst hka
        by_cases hi : k = i
        · subst hi
          simp [appendAgentCall, lookupA]
        · have : ¬ i = k := fun hc => hi hc.symm
          simp [appendAgentCall, lookupA, hi, this]
      · by_cases hi : k = i
        · subst hi
          have : ¬ k = aid := hka
          simp [appendAgentCall, lookupA, this]
        · simp [appendAgentCall, lookupA, hka, hi, ih]

theorem invFlatGrow (r : UsageReport) (l : List ToolCallRecord)
    (h : subOrderInv r) :
    subOrderInv { r with tool_calls := r.tool_calls ++ l } := by
  intro i rec hl
  have hbase := h i rec hl
  rw [List.filter_append, List.map_append]
  exact hbase.trans (List.sublist_append_left _ _)

theorem invFreshAgent (r : UsageReport) (k aid al nm : Json)
    (h : subOrderInv r) :
    subOrderInv { r with agents := r.agents ++ [(k, ⟨aid, al, nm, []⟩)] } := by
  intro i rec hl
  rw [show ({ r with agents := r.agents ++ [(k, ⟨aid, al, nm, []⟩)] } :
    UsageReport).agents = r.agents ++ [(k, ⟨aid, al, nm, []⟩)] from rfl,
    lookupA_append_single] at hl
  rcases hr : lookupA r.agents i with _ | rec'
  · rw [hr] at hl
    by_cases hk : k = i
    · simp only [hk, if_true] at hl
      cases hl
      exact List.nil_sublist _
    · simp [hk] at hl
  · rw [hr] at hl
    cases hl
    exact h i _ hr

theorem step1_inv (r : UsageReport) (ev : Json) (h : subOrderInv r) :
    subOrderInv (step1 r ev).1 := by
  rcases h1 : step1read ev with m | o
  · simpa [step1, h1] using h
  · rcases o with _ | ⟨aid, al, nm⟩
    · simpa [step1, h1] using h
    · by_cases hh : pyHashable aid
      · simp only [step1, h1, hh, if_true]
        split
        · exact h
        · exact invFreshAgent r aid aid al nm h
      · simpa [step1, h1, hh] using h

theorem insertCaller_inv (r : UsageReport) (cid : String) (al : Json)
    (h : subOrderInv r) : subOrderInv (insertCaller r cid al) := by
  unfold insertCaller
  split
  · exact h
  · exact invFreshAgent r (.str cid) (.str cid) al (.str ("Agent-" ++ cid)) h

theorem step2loop_inv (cs : List Json) :
    ∀ r : UsageReport, subOrderInv r → subOrderInv (step2loop r cs).1 := by
  induction cs with
  | nil => intro r h; exact h
  | cons c rest ih =>
      intro r h
      rcases hc : callerRead c with m | o
      · simpa [step2loop, hc] using h
      · rcases o with _ | ⟨cid, al⟩
        · simpa [step2loop, hc] using ih r h
        · simpa [step2loop, hc] using ih _ (insertCaller_inv r cid al h)

theorem step2_inv (r : UsageReport) (ev : Json) (h : subOrderInv r) :
    subOrderInv (step2 r ev).1 := by
  rcases h1 : pyContains ev "callerChain" with m | b
  · simpa [step2, h1] using h
  · rcases b with _ | _
    · simpa [step2, h1] using h
    · rcases h2 : pyGet ev "callerChain" with m | cc
      · simpa [step2, h1, h2] using h
      · rcases h3 : pyIter cc with m | callers
        · simpa [step2, h1, h2, h3] using h
        · simpa [step2, h1, h2, h3] using step2loop_inv callers r h

theorem step3_inv (r : UsageReport) (ev : Json) (h : subOrderInv r) :
    subOrderInv (step3 r ev).1 := by
  rcases h3 : toolCallOfEvent ev with m | o
  · simpa [step3, h3] using h
  · rcases o with _ | tc
    · simpa [step3, h3] using h
    · by_cases hh : pyHashable tc.agent_id
      · simp only [step3, h3, hh, if_true]
        by_cases hm : (r.agents.any fun p => decide (p.1 = tc.agent_id)) = true
        · simp only [hm, if_true]
          intro i rec hl
          simp only [lookupA_appendAgentCall] at hl
          by_cases hi : i = tc.agent_id
          · subst hi
            simp only [if_true] at hl
            rcases hr : lookupA r.agents tc.agent_id with _ | rec0
            · rw [hr] at hl; cases hl
            · rw [hr] at hl
              cases hl
              have hbase := h tc.agent_id rec0 hr
              simpa [List.filter_append, projCall] using
                hbase.append (List.Sublist.refl [projCall tc])
          · simp only [hi, if_false] at hl
            have hbase := h i rec hl
            have hne : (decide (tc.agent_id = i)) = false := by
              simp only [decide_eq_false_iff_not]
              exact fun hc => hi hc.symm
            simpa [List.filter_append, List.filter_cons, hne] using hbase
        · simp only [hm, if_false]
          exact invFlatGrow r [tc] h
      · simp only [step3, h3, hh, if_false]
        exact invFlatGrow r [tc] h

theorem processEvent_inv (r : UsageReport) (ev : Json) (h : subOrderInv r) :
    subOrderInv (processEvent r ev).1 := by
  unfold processEvent
  rcases h1 : step1 r ev with ⟨r1, m1⟩
  have i1 : subOrderInv r1 := by
    have := step1_inv r ev h
    rwa [h1] at this
  rcases m1 with _ | m
  · rcases h2 : step2 r1 ev with ⟨r2, m2⟩
    have i2 : subOrderInv r2 := by
      have := step2_inv r1 ev i1
      rwa [h2] at this
    rcases m2 with _ | m
    · simpa [h1, h2] using step3_inv r2 ev i2
    · simpa [h1, h2] using i2
  · simpa [h1] using i1

theorem extractR_inv (events : List Json) :
    ∀ r : UsageReport, subOrderInv r → subOrderInv (extractR r events) := by
  induction events with
  | nil => intro r h; exact h
  | cons ev rest ih =>
      intro r h
      rw [extractR_cons]
      exact ih _ (processEvent_inv r ev h)

theorem extract_from_trace_inv (events : List Json) :
    subOrderInv (extract_from_trace events) := by
  rw [extract_eq_extractR]
  refine extractR_inv events _ ?_
  intro i rec hl
  cases hl

/-- Claim C1: `extract_from_trace` returns a `UsageReport` for every event
sequence and never raises (it is a total function into `UsageReport`); an
exception raised while processing one event is caught inside that event's
isolated boundary, the event's content is logged together with the message,
and processing continues with the next event from the state reached at the
point of the exception. -/
theorem extract_never_raises_per_event_isolation (pre suf : List Json)
    (ev : Json) (m : String)
    (h : (processEvent (extract_from_trace pre) ev).2 = some m) :
    extract_from_trace (pre ++ ev :: suf)
      = extractR ((processEvent (extract_from_trace pre) ev).1) suf
    ∧ (m, ev) ∈ (extract_from_trace_logged (pre ++ ev :: suf)).2 := by
  constructor
  · rw [extract_eq_extractR, extractR_append, ← extract_eq_extractR, extractR_cons]
  · rw [logged_append]
    have hfst : (extract_from_trace_logged pre).1 = extract_from_trace pre := rfl
    have hstep : (extractStep (extract_from_trace_logged pre) ev).2
        = (extract_from_trace_logged pre).2 ++ [(m, ev)] := by
      rw [extractStep_snd, hfst, h]
    obtain ⟨l, hl⟩ :=
      foldl_extractStep_log_mono suf (extractStep (extract_from_trace_logged pre) ev)
    rw [List.foldl_cons, hl, hstep]
    simp

theorem extract_never_raises_per_event_isolation_witness :
    extract_from_trace ([] ++ Json.str "agentId" ::
        [Json.obj [("agentId", Json.str "A")]])
      = extractR ((processEvent (extract_from_trace [])
          (Json.str "agentId")).1) [Json.obj [("agentId", Json.str "A")]]
    ∧ ("TypeError: string indices must be integers", Json.str "agentId")
        ∈ (extract_from_trace_logged ([] ++ Json.str "agentId" ::
            [Json.obj [("agentId", Json.str "A")]])).2 :=
  extract_never_raises_per_event_isolation [] [Json.obj [("agentId", Json.str "A")]]
    (Json.str "agentId") "TypeError: string indices must be integers" (by decide)

/-- Claim C3: the flat `tool_calls` list of the report is exactly the
per-event contributions in input order (`filterMap` over the event sequence),
and each agent's sub-list is an order-preserving selection (a sublist) of the
flat-list records attributed to that agent, projected to sub-list entries. -/
theorem tool_call_order_preservation (events : List Json) :
    (extract_from_trace events).tool_calls = events.filterMap eventFlatCall
    ∧ ∀ i rec, lookupA (extract_from_trace events).agents i = some rec →
        rec.tool_calls.Sublist
          (((extract_from_trace events).tool_calls.filter
              fun tc => decide (tc.agent_id = i)).map projCall) := by
  constructor
  · rw [extract_eq_extractR, extractR_tool_calls]
    simp
  · exact extract_from_trace_inv events

theorem tool_call_order_preservation_witness :
    (AgentRecord.tool_calls
        ⟨Json.str "A", Json.str "", Json.str "Agent-A",
          [⟨Json.str "search", Json.obj [("q", Json.str "x")], Json.str "t1"⟩]⟩).Sublist
      (((extract_from_trace
          [Json.obj [("agentId", Json.str "A"), ("timestamp", Json.str "t1"),
            ("trace", Json.obj [("orchestrationTrace", Json.obj [("invocationInput",
              Json.obj [("actionGroupInvocationInput",
                Json.obj [("function", Json.str "search"),
                  ("parameters", Json.obj [("q", Json.str "x")])])])])])]]).tool_calls.filter
          fun tc => decide (tc.agent_id = Json.str "A")).map projCall) :=
  (tool_call_order_preservation
    [Json.obj [("agentId", Json.str "A"), ("timestamp", Json.str "t1"),
      ("trace", Json.obj [("orchestrationTrace", Json.obj [("invocationInput",
        Json.obj [("actionGroupInvocationInput",
          Json.obj [("function", Json.str "search"),
            ("parameters", Json.obj [("q", Json.str "x")])])])])])]]).2
    (Json.str "A")
    ⟨Json.str "A", Json.str "", Json.str "Agent-A",
      [⟨Json.str "search", Json.obj [("q", Json.str "x")], Json.str "t1"⟩]⟩
    (by decide)

theorem metaEq_refl (a : AgentRecord) : metaEq a a := ⟨rfl, rfl, rfl⟩

theorem metaEq_trans {a b c : AgentRecord} (h1 : metaEq a b) (h2 : metaEq b c) :
    metaEq a c :=
  ⟨h2.1.trans h1.1, h2.2.1.trans h1.2.1, h2.2.2.trans h1.2.2⟩

theorem lookupA_append_of_some (ags : List (Json × AgentRecord))
    (x : Json × AgentRecord) (i : Json) (rec : AgentRecord)
    (h : lookupA ags i = some rec) : lookupA (ags ++ [x]) i = some rec := by
  obtain ⟨k, rec0⟩ := x
  rw [lookupA_append_single, h]

theorem step1_meta (r : UsageReport) (ev : Json) (i : Json) (rec : AgentRecord)
    (h : lookupA r.agents i = some rec) :
    ∃ rec', lookupA (step1 r ev).1.agents i = some rec' ∧ metaEq rec rec' := by
  rcases h1 : step1read ev with m | o
  · exact ⟨rec, by simpa [step1, h1] using h, metaEq_refl rec⟩
  · rcases o with _ | ⟨aid, al, nm⟩
    · exact ⟨rec, by simpa [step1, h1] using h, metaEq_refl rec⟩
    · by_cases hh : pyHashable aid
      · simp only [step1, h1, hh, if_true]
        split
        · exact ⟨rec, h, metaEq_refl rec⟩
        · exact ⟨rec, lookupA_append_of_some _ _ i rec h, metaEq_refl rec⟩
      · exact ⟨rec, by simpa [step1, h1, hh] using h, metaEq_refl rec⟩

theorem insertCaller_meta (r : UsageReport) (cid : String) (al : Json)
    (i : Json) (rec : AgentRecord) (h : lookupA r.agents i = some rec) :
    ∃ rec', lookupA (insertCaller r cid al).agents i = some rec' ∧
      metaEq rec rec' := by
  unfold insertCaller
  split
  · exact ⟨rec, h, metaEq_refl rec⟩
  · exact ⟨rec, lookupA_append_of_some _ _ i rec h, metaEq_refl rec⟩

theorem step2loop_meta (cs : List Json) :
    ∀ (r : UsageReport) (i : Json) (rec : AgentRecord),
      lookupA r.agents i = some rec →
      ∃ rec', lookupA (step2loop r cs).1.agents i = some rec' ∧
        metaEq rec rec' := by
  induction cs with
  | nil => intro r i rec h; exact ⟨rec, h, metaEq_refl rec⟩
  | cons c rest ih =>
      intro r i rec h
      rcases hc : callerRead c with m | o
      · exact ⟨rec, by simpa [step2loop, hc] using h, metaEq_refl rec⟩
      · rcases o with _ | ⟨cid, al⟩
        · simpa [step2loop, hc] using ih r i rec h
        · obtain ⟨rec1, h1, m1⟩ := insertCaller_meta r cid al i rec h
          obtain ⟨rec2, h2, m2⟩ := ih (insertCaller r cid al) i rec1 h1
          exact ⟨rec2, by simpa [step2loop, hc] using h2, metaEq_trans m1 m2⟩

theorem step2_meta (r : UsageReport) (ev : Json) (i : Json) (rec : AgentRecord)
    (h : lookupA r.agents i = some rec) :
    ∃ rec', lookupA (step2 r ev).1.agents i = some rec' ∧ metaEq rec rec' := by
  rcases h1 : pyContains ev "callerChain" with m | b
  · exact ⟨rec, by simpa [step2, h1] using h, metaEq_refl rec⟩
  · rcases b with _ | _
    · exact ⟨rec, by simpa [step2, h1] using h, metaEq_refl rec⟩
    · rcases h2 : pyGet ev "callerChain" with m | cc
      · exact ⟨rec, by simpa [step2, h1, h2] using h, metaEq_refl rec⟩
      · rcases h3 : pyIter cc with m | callers
        · exact ⟨rec, by simpa [step2, h1, h2, h3] using h, metaEq_refl rec⟩
        · obtain ⟨rec', h', m'⟩ := step2loop_meta callers r i rec h
          exact ⟨rec', by simpa [step2, h1, h2, h3] using h', m'⟩

theorem step3_meta (r : UsageReport) (ev : Json) (i : Json) (rec : AgentRecord)
    (h : lookupA r.agents i = some rec) :
    ∃ rec', lookupA (step3 r ev).1.agents i = some rec' ∧ metaEq rec rec' := by
  rcases h3 : toolCallOfEvent ev with m | o
  · exact ⟨rec, by simpa [step3, h3] using h, metaEq_refl rec⟩
  · rcases o with _ | tc
    · exact ⟨rec, by simpa [step3, h3] using h, metaEq_refl rec⟩
    · by_cases hh : pyHashable tc.agent_id
      · simp only [step3, h3, hh, if_true]
        split
        · rw [show (({ r with tool_calls := r.tool_calls ++ [tc] } :
              UsageReport).agents) = r.agents from rfl]
          by_cases hi : i = tc.agent_id
          · subst hi
            refine ⟨{ rec with tool_calls := rec.tool_calls ++
              [⟨tc.tool_name, tc.parameters, tc.timestamp⟩] }, ?_, ?_⟩
            · simp [lookupA_appendAgentCall, h]
            · exact ⟨rfl, rfl, rfl⟩
          · exact ⟨rec, by simp [lookupA_appendAgentCall, hi, h], metaEq_refl rec⟩
        · exact ⟨rec, h, metaEq_refl rec⟩
      · exact ⟨rec, by simpa [step3, h3, hh] using h, metaEq_refl rec⟩

theorem processEvent_meta (r : UsageReport) (ev : Json) (i : Json)
    (rec : AgentRecord) (h : lookupA r.agents i = some rec) :
    ∃ rec', lookupA (processEvent r ev).1.agents i = some rec' ∧
      metaEq rec rec' := by
  rcases h1 : step1 r ev with ⟨r1, m1⟩
  obtain ⟨rec1, hl1, hm1⟩ := step1_meta r ev i rec h
  rw [h1] at hl1
  rcases m1 with _ | m
  · rcases h2 : step2 r1 ev with ⟨r2, m2⟩
    obtain ⟨rec2, hl2, hm2⟩ := step2_meta r1 ev i rec1 hl1
    rw [h2] at hl2
    rcases m2 with _ | m
    · obtain ⟨rec3, hl3, hm3⟩ := step3_meta r2 ev i rec2 hl2
      exact ⟨rec3, by simpa [processEvent, h1, h2] using hl3,
        metaEq_trans hm1 (metaEq_trans hm2 hm3)⟩
    · exact ⟨rec2, by simpa [processEvent, h1, h2] using hl2,
        metaEq_trans hm1 hm2⟩
  · exact ⟨rec1, by simpa [processEvent, h1] using hl1, hm1⟩

theorem extractR_meta (events : List Json) :
    ∀ (r : UsageReport) (i : Json) (rec : AgentRecord),
      lookupA r.agents i = some rec →
      ∃ rec', lookupA (extractR r events).agents i = some rec' ∧
        metaEq rec rec' := by
  induction events with
  | nil => intro r i rec h; exact ⟨rec, h, metaEq_refl rec⟩
  | cons ev rest ih =>
      intro r i rec h
      obtain ⟨rec1, h1, m1⟩ := processEvent_meta r ev i rec h
      obtain ⟨rec2, h2, m2⟩ := ih (processEvent r ev).1 i rec1 h1
      exact ⟨rec2, by rwa [extractR_cons], metaEq_trans m1 m2⟩

theorem processEvent_mkIdent_fresh (a : String) (al nm : Json) :
    processEvent ⟨[], []⟩ (mkIdent a al nm) =
      (⟨[(.str a, ⟨.str a, al, nm, []⟩)], []⟩, none) := by
  simp [mkIdent, processEvent, step1, step1read, step2, step3, pyContains, pyGet,
    pyGetD, lookupKV, pyHashable, toolCallOfEvent, getAGI]

theorem processEvent_mkIdent_existing (a : String) (al nm al0 nm0 : Json)
    (tcs : List AgentToolCall) (flat : List ToolCallRecord) :
    processEvent ⟨[(.str a, ⟨.str a, al0, nm0, tcs⟩)], flat⟩ (mkIdent a al nm) =
      (⟨[(.str a, ⟨.str a, al0, nm0, tcs⟩)], flat⟩, none) := by
  simp [mkIdent, processEvent, step1, step1read, step2, step3, pyContains, pyGet,
    pyGetD, lookupKV, pyHashable, toolCallOfEvent, getAGI]

/-- Claim C4: agent identity is first-seen-wins.  (1) Any record present after
processing a prefix keeps its `agent_id`, `agent_alias_id` and `agent_name`
(though not its growing `tool_calls` sub-list) under processing of any further
events.  (2) Concretely, two identity events for the same `agentId` with
different metadata leave a record carrying the metadata of the first one, for
every continuation of the stream. -/
theorem agent_identity_first_seen_wins :
    (∀ (pre suf : List Json) (i : Json) (rec : AgentRecord),
        lookupA (extract_from_trace pre).agents i = some rec →
        ∃ rec', lookupA (extract_from_trace (pre ++ suf)).agents i = some rec' ∧
          rec'.agent_id = rec.agent_id ∧
          rec'.agent_alias_id = rec.agent_alias_id ∧
          rec'.agent_name = rec.agent_name)
    ∧ ∀ (a : String) (al1 nm1 al2 nm2 : Json) (rest : List Json),
        ∃ rec', lookupA (extract_from_trace
            (mkIdent a al1 nm1 :: mkIdent a al2 nm2 :: rest)).agents (.str a)
          = some rec' ∧ rec'.agent_id = .str a ∧
          rec'.agent_alias_id = al1 ∧ rec'.agent_name = nm1 := by
  constructor
  · intro pre suf i rec h
    rw [extract_eq_extractR] at h
    rw [extract_eq_extractR, extractR_append]
    obtain ⟨rec', h', m'⟩ := extractR_meta suf _ i rec h
    exact ⟨rec', h', m'.1, m'.2.1, m'.2.2⟩
  · intro a al1 nm1 al2 nm2 rest
    rw [extract_eq_extractR, extractR_cons, processEvent_mkIdent_fresh,
      extractR_cons, processEvent_mkIdent_existing]
    have hl : lookupA ([(Json.str a, ⟨Json.str a, al1, nm1, []⟩)] :
        List (Json × AgentRecord)) (.str a) = some ⟨Json.str a, al1, nm1, []⟩ := by
      simp [lookupA]
    obtain ⟨rec', h', m'⟩ := extractR_meta rest
      ⟨[(Json.str a, ⟨Json.str a, al1, nm1, []⟩)], []⟩ (.str a) _ hl
    exact ⟨rec', h', m'.1, m'.2.1, m'.2.2⟩

theorem agent_identity_first_seen_wins_witness :
    (∃ rec', lookupA (extract_from_trace
        ([mkIdent "A" (Json.str "alias1") (Json.str "Alice")] ++
          [mkIdent "A" (Json.str "alias2") (Json.str "Alicia")])).agents
        (.str "A") = some rec' ∧
      rec'.agent_id = (AgentRecord.mk (Json.str "A") (Json.str "alias1")
          (Json.str "Alice") []).agent_id ∧
      rec'.agent_alias_id = (AgentRecord.mk (Json.str "A") (Json.str "alias1")
          (Json.str "Alice") []).agent_alias_id ∧
      rec'.agent_name = (AgentRecord.mk (Json.str "A") (Json.str "alias1")
          (Json.str "Alice") []).agent_name)
    ∧ ∃ rec', lookupA (extract_from_trace
        (mkIdent "A" (Json.str "alias1") (Json.str "Alice") ::
          mkIdent "A" (Json.str "alias2") (Json.str "Alicia") :: [])).agents
        (.str "A") = some rec' ∧ rec'.agent_id = .str "A" ∧
      rec'.agent_alias_id = Json.str "alias1" ∧
      rec'.agent_name = Json.str "Alice" :=
  ⟨agent_identity_first_seen_wins.1
      [mkIdent "A" (Json.str "alias1") (Json.str "Alice")]
      [mkIdent "A" (Json.str "alias2") (Json.str "Alicia")] (.str "A")
      ⟨Json.str "A", Json.str "alias1", Json.str "Alice", []⟩ (by decide),
    agent_identity_first_seen_wins.2 "A" (Json.str "alias1") (Json.str "Alice")
      (Json.str "alias2") (Json.str "Alicia") []⟩

theorem processEvent_toolNoAgent (t : String) (ps : List (String × Json)) :
    processEvent ⟨[], []⟩ (mkToolNoAgent t ps) =
      (⟨[], [⟨.str "unknown", .str t, .obj ps, .str ""⟩]⟩, none) := by
  simp [mkToolNoAgent, processEvent, step1, step1read, step2, step3, pyContains,
    pyGet, pyGetD, lookupKV, pyHashable, toolCallOfEvent, getAGI, shapeOfAGI]

theorem processEvent_mkIdOnly_fresh (a : String) (flat : List ToolCallRecord) :
    processEvent ⟨[], flat⟩ (mkIdOnly a) =
      (⟨[(.str a, ⟨.str a, .str "", .str ("Agent-" ++ a), []⟩)], flat⟩, none) := by
  simp [mkIdOnly, processEvent, step1, step1read, step2, step3, pyContains,
    pyGet, pyGetD, lookupKV, pyHashable, toolCallOfEvent, getAGI, pyStr]

theorem processEvent_toolFor_known (a t : String) (ps : List (String × Json))
    (al0 nm0 : Json) :
    processEvent ⟨[(.str a, ⟨.str a, al0, nm0, []⟩)], []⟩ (mkToolFor a t ps) =
      (⟨[(.str a, ⟨.str a, al0, nm0, [⟨.str t, .obj ps, .str ""⟩]⟩)],
        [⟨.str a, .str t, .obj ps, .str ""⟩]⟩, none) := by
  simp [mkToolFor, processEvent, step1, step1read, step2, step3, pyContains,
    pyGet, pyGetD, lookupKV, pyHashable, toolCallOfEvent, getAGI, shapeOfAGI,
    appendAgentCall]

/-- Claim C5: attribution depends on event order.  A tool-call event with no
`agentId` followed by the identity event for agent `a` leaves exactly one flat
record (attributed to `"unknown"`) and an empty sub-list for `a`; in the
reversed order, with the tool-call event carrying `agentId` `a`, the sub-list
for `a` has exactly one entry. -/
theorem attribution_order_dependency (a t : String) (ps : List (String × Json)) :
    ((extract_from_trace [mkToolNoAgent t ps, mkIdOnly a]).tool_calls.length = 1
      ∧ ∃ rec, lookupA (extract_from_trace
          [mkToolNoAgent t ps, mkIdOnly a]).agents (.str a) = some rec ∧
          rec.tool_calls = [])
    ∧ ((extract_from_trace [mkIdOnly a, mkToolFor a t ps]).tool_calls.length = 1
      ∧ ∃ rec, lookupA (extract_from_trace
          [mkIdOnly a, mkToolFor a t ps]).agents (.str a) = some rec ∧
          rec.tool_calls.length = 1) := by
  have s1 : extract_from_trace [mkToolNoAgent t ps, mkIdOnly a] =
      ⟨[(.str a, ⟨.str a, .str "", .str ("Agent-" ++ a), []⟩)],
        [⟨.str "unknown", .str t, .obj ps, .str ""⟩]⟩ := by
    rw [extract_eq_extractR, extractR_cons, processEvent_toolNoAgent,
      extractR_cons, processEvent_mkIdOnly_fresh]
    rfl
  have s2 : extract_from_trace [mkIdOnly a, mkToolFor a t ps] =
      ⟨[(.str a, ⟨.str a, .str "", .str ("Agent-" ++ a),
          [⟨.str t, .obj ps, .str ""⟩]⟩)],
        [⟨.str a, .str t, .obj ps, .str ""⟩]⟩ := by
    rw [extract_eq_extractR, extractR_cons]
    rw [show processEvent (⟨[], []⟩ : UsageReport) (mkIdOnly a) =
      (⟨[(.str a, ⟨.str a, .str "", .str ("Agent-" ++ a), []⟩)], []⟩, none) from
      processEvent_mkIdOnly_fresh a [], extractR_cons, processEvent_toolFor_known]
    rfl
  refine ⟨⟨?_, ?_⟩, ?_, ?_⟩
  · rw [s1]
    rfl
  · rw [s1]
    exact ⟨⟨.str a, .str "", .str ("Agent-" ++ a), []⟩, by simp [lookupA], rfl⟩
  · rw [s2]
    rfl
  · rw [s2]
    exact ⟨⟨.str a, .str "", .str ("Agent-" ++ a), [⟨.str t, .obj ps, .str ""⟩]⟩,
      by simp [lookupA], rfl⟩

/-- Claim C6: a caller-chain entry whose ARN splits into at least two
segments yields an agent record keyed by the second-to-last segment, with
alias id the last segment when there are at least three segments and `""`
otherwise; an ARN splitting into fewer than two segments creates no record. -/
theorem caller_chain_arn_parsing (s : String) :
    (2 ≤ (arnParts s).length →
      callerRead (Json.obj [("agentAliasArn", Json.str s)]) =
        .ok (some (arnAgentId s, arnAlias s))
      ∧ (extract_from_trace [mkChainEv s]).agents =
        [(.str (arnAgentId s),
          ⟨.str (arnAgentId s), arnAlias s, .str ("Agent-" ++ arnAgentId s), []⟩)])
    ∧ ((arnParts s).length < 2 →
      callerRead (Json.obj [("agentAliasArn", Json.str s)]) = .ok none
      ∧ (extract_from_trace [mkChainEv s]).agents = []) := by
  have hstep : callerRead (Json.obj [("agentAliasArn", Json.str s)]) =
      (if 2 ≤ (arnParts s).length then
        .ok (some ((arnParts s).getD ((arnParts s).length - 2) "",
          if 2 < (arnParts s).length then
            Json.str ((arnParts s).getD ((arnParts s).length - 1) "")
          else Json.str ""))
      else .ok none) := rfl
  constructor
  · intro hlen
    have hcr : callerRead (Json.obj [("agentAliasArn", Json.str s)]) =
        .ok (some (arnAgentId s, arnAlias s)) := by
      rw [hstep, if_pos hlen]
      rfl
    refine ⟨hcr, ?_⟩
    rw [extract_eq_extractR, extractR_cons]
    rw [show processEvent (⟨[], []⟩ : UsageReport) (mkChainEv s) =
        (⟨[(.str (arnAgentId s), ⟨.str (arnAgentId s), arnAlias s,
            .str ("Agent-" ++ arnAgentId s), []⟩)], []⟩, none) from by
      simp [mkChainEv, processEvent, step1, step1read, step2, step2loop, step3,
        pyContains, pyGet, pyGetD, pyIter, lookupKV, toolCallOfEvent, getAGI,
        hcr, insertCaller]]
    rfl
  · intro hlen
    have hcr : callerRead (Json.obj [("agentAliasArn", Json.str s)]) = .ok none := by
      rw [hstep, if_neg (by omega)]
    refine ⟨hcr, ?_⟩
    rw [extract_eq_extractR, extractR_cons]
    rw [show processEvent (⟨[], []⟩ : UsageReport) (mkChainEv s) =
        (⟨[], []⟩, none) from by
      simp [mkChainEv, processEvent, step1, step1read, step2, step2loop, step3,
        pyContains, pyGet, pyGetD, pyIter, lookupKV, toolCallOfEvent, getAGI,
        hcr]]
    rfl

theorem caller_chain_arn_parsing_witness :
    (callerRead (Json.obj [("agentAliasArn", Json.str "a/b/c")]) =
        .ok (some (arnAgentId "a/b/c", arnAlias "a/b/c"))
      ∧ (extract_from_trace [mkChainEv "a/b/c"]).agents =
        [(.str (arnAgentId "a/b/c"),
          ⟨.str (arnAgentId "a/b/c"), arnAlias "a/b/c",
            .str ("Agent-" ++ arnAgentId "a/b/c"), []⟩)])
    ∧ (callerRead (Json.obj [("agentAliasArn", Json.str "abc")]) = .ok none
      ∧ (extract_from_trace [mkChainEv "abc"]).agents = []) :=
  ⟨(caller_chain_arn_parsing "a/b/c").1 (by decide),
    (caller_chain_arn_parsing "abc").2 (by decide)⟩

theorem pyGet_ok_obj (j : Json) (k : String) (v : Json) (h : pyGet j k = .ok v) :
    ∃ kvs, j = .obj kvs := by
  cases j with
  | obj kvs => exact ⟨kvs, rfl⟩
  | null => simp [pyGet] at h
  | bool b => simp [pyGet] at h
  | num n => simp [pyGet] at h
  | str s => simp [pyGet] at h
  | arr xs => simp [pyGet] at h

theorem getAGI_obj (ev : Json) (agi : Json) (h : getAGI ev = .ok (some agi)) :
    ∃ kvs, ev = .obj kvs := by
  unfold getAGI at h
  rcases hc : pyContains ev "trace" with m | b <;> rw [hc] at h
  · cases h
  · rcases b with _ | _
    · simp at h
    · rcases hg : pyGet ev "trace" with m | tr <;> rw [hg] at h
      · cases h
      · exact pyGet_ok_obj ev "trace" tr hg

theorem any_key_eq_isSome_lookup (l : List (String × Json)) (k : String) :
    (l.any fun p => decide (p.1 = k)) = (lookupKV l k).isSome := by
  induction l with
  | nil => rfl
  | cons p rest ih =>
      obtain ⟨k', v⟩ := p
      by_cases h : k' = k <;> simp [lookupKV, h, ih]

theorem shapeOfAGI_function (l : List (String × Json)) (f : Json)
    (hf : lookupKV l "function" = some f) :
    shapeOfAGI (.obj l) =
      .ok (some (f, (lookupKV l "parameters").getD (.obj []))) := by
  simp [shapeOfAGI, pyContains, pyGetD, any_key_eq_isSome_lookup, hf]

theorem shapeOfAGI_apiPath (l : List (String × Json)) (p : Json)
    (hnf : lookupKV l "function" = none) (hp : lookupKV l "apiPath" = some p) :
    shapeOfAGI (.obj l) =
      .ok (some (p, (lookupKV l "requestBody").getD (.obj []))) := by
  simp [shapeOfAGI, pyContains, pyGetD, any_key_eq_isSome_lookup, hnf, hp]

theorem shapeOfAGI_neither (l : List (String × Json))
    (hnf : lookupKV l "function" = none) (hnp : lookupKV l "apiPath" = none) :
    shapeOfAGI (.obj l) = .ok none := by
  simp [shapeOfAGI, pyContains, pyGetD, any_key_eq_isSome_lookup, hnf, hnp]

theorem toolCallOfEvent_of_shape (ev : Json) (kvs l : List (String × Json))
    (tn ps : Json) (hev : ev = .obj kvs)
    (hagi : getAGI ev = .ok (some (.obj l)))
    (hs : shapeOfAGI (.obj l) = .ok (some (tn, ps))) :
    toolCallOfEvent ev =
      .ok (some ⟨jGetD ev "agentId" (.str "unknown"), tn, ps,
        jGetD ev "timestamp" (.str "")⟩) := by
  subst hev
  simp [toolCallOfEvent, hagi, hs, pyGetD, jGetD]

theorem toolCallOfEvent_of_no_shape (ev : Json) (l : List (String × Json))
    (hagi : getAGI ev = .ok (some (.obj l)))
    (hs : shapeOfAGI (.obj l) = .ok none) :
    toolCallOfEvent ev = .ok none := by
  simp [toolCallOfEvent, hagi, hs]

theorem eventFlatCall_of_no_err (ev : Json) (h1 : step1err ev = none)
    (h2 : step2err ev = none) :
    eventFlatCall ev =
      match toolCallOfEvent ev with
      | .ok (some tc) => some tc
      | _ => none := by
  simp [eventFlatCall, h1, h2]

theorem extract_calls_split (pre suf : List Json) (ev : Json) :
    (extract_from_trace (pre ++ ev :: suf)).tool_calls =
      pre.filterMap eventFlatCall ++ (eventFlatCall ev).toList ++
        suf.filterMap eventFlatCall := by
  rw [extract_eq_extractR, extractR_tool_calls]
  rcases h : eventFlatCall ev <;>
    simp [List.filterMap_append, List.filterMap_cons, h]

/-- Claim C2: for an event whose `actionGroupInvocationInput` is present (and
whose identity/caller steps do not raise), a `function` key yields exactly one
record named by `function` with parameters from `parameters` (default empty
mapping); otherwise an `apiPath` key yields exactly one record named by
`apiPath` with parameters from `requestBody` (default empty); with neither
key, the event contributes zero records; and in every position of the stream
the flat list splits around the event's contribution, so later events are
still processed. -/
theorem action_group_shape_dispatch (ev : Json) (l : List (String × Json))
    (hagi : getAGI ev = .ok (some (.obj l)))
    (h1 : step1err ev = none) (h2 : step2err ev = none) :
    (∀ f, lookupKV l "function" = some f →
      eventFlatCall ev = some ⟨jGetD ev "agentId" (.str "unknown"), f,
        (lookupKV l "parameters").getD (.obj []), jGetD ev "timestamp" (.str "")⟩)
    ∧ (lookupKV l "function" = none → ∀ p, lookupKV l "apiPath" = some p →
      eventFlatCall ev = some ⟨jGetD ev "agentId" (.str "unknown"), p,
        (lookupKV l "requestBody").getD (.obj []), jGetD ev "timestamp" (.str "")⟩)
    ∧ (lookupKV l "function" = none → lookupKV l "apiPath" = none →
      eventFlatCall ev = none)
    ∧ (∀ pre suf, (extract_from_trace (pre ++ ev :: suf)).tool_calls =
        pre.filterMap eventFlatCall ++ (eventFlatCall ev).toList ++
          suf.filterMap eventFlatCall) := by
  obtain ⟨kvs, hev⟩ := getAGI_obj ev _ hagi
  refine ⟨?_, ?_, ?_, fun pre suf => extract_calls_split pre suf ev⟩
  · intro f hf
    rw [eventFlatCall_of_no_err ev h1 h2,
      toolCallOfEvent_of_shape ev kvs l f _ hev hagi (shapeOfAGI_function l f hf)]
  · intro hnf p hp
    rw [eventFlatCall_of_no_err ev h1 h2,
      toolCallOfEvent_of_shape ev kvs l p _ hev hagi
        (shapeOfAGI_apiPath l p hnf hp)]
  · intro hnf hnp
    rw [eventFlatCall_of_no_err ev h1 h2,
      toolCallOfEvent_of_no_shape ev l hagi (shapeOfAGI_neither l hnf hnp)]

theorem action_group_shape_dispatch_witness :
    (eventFlatCall evFunSample
      = some ⟨jGetD evFunSample "agentId" (.str "unknown"), Json.str "search",
          (lookupKV [("function", Json.str "search"),
            ("parameters", Json.obj [("q", Json.str "x")])] "parameters").getD
            (.obj []),
          jGetD evFunSample "timestamp" (.str "")⟩)
    ∧ eventFlatCall evJunkSample = none :=
  ⟨(action_group_shape_dispatch evFunSample [("function", Json.str "search"),
      ("parameters", Json.obj [("q", Json.str "x")])] rfl rfl rfl).1
      (Json.str "search") rfl,
    (action_group_shape_dispatch evJunkSample [("junk", Json.str "z")]
      rfl rfl rfl).2.2.1 rfl rfl⟩

/-- Claim C10: when an `actionGroupInvocationInput` carries both a `function`
key and an `apiPath` key, the `function` branch wins: the record is named by
`function` with parameters from `parameters`, and `apiPath`/`requestBody` do
not appear in it. -/
theorem function_shape_wins_over_apiPath (ev : Json) (l : List (String × Json))
    (f p : Json) (hagi : getAGI ev = .ok (some (.obj l)))
    (h1 : step1err ev = none) (h2 : step2err ev = none)
    (hf : lookupKV l "function" = some f) (_hp : lookupKV l "apiPath" = some p) :
    eventFlatCall ev = some ⟨jGetD ev "agentId" (.str "unknown"), f,
      (lookupKV l "parameters").getD (.obj []), jGetD ev "timestamp" (.str "")⟩
    ∧ (extract_from_trace [ev]).tool_calls =
      [⟨jGetD ev "agentId" (.str "unknown"), f,
        (lookupKV l "parameters").getD (.obj []),
        jGetD ev "timestamp" (.str "")⟩] := by
  obtain ⟨kvs, hev⟩ := getAGI_obj ev _ hagi
  have hflat : eventFlatCall ev = some ⟨jGetD ev "agentId" (.str "unknown"), f,
      (lookupKV l "parameters").getD (.obj []),
      jGetD ev "timestamp" (.str "")⟩ := by
    rw [eventFlatCall_of_no_err ev h1 h2,
      toolCallOfEvent_of_shape ev kvs l f _ hev hagi (shapeOfAGI_function l f hf)]
  refine ⟨hflat, ?_⟩
  have := extract_calls_split [] [] ev
  simpa [hflat] using this

theorem function_shape_wins_over_apiPath_witness :
    eventFlatCall evBothSample
      = some ⟨jGetD evBothSample "agentId" (.str "unknown"), Json.str "f1",
          (lookupKV [("function", Json.str "f1"), ("apiPath", Json.str "/p1"),
            ("requestBody", Json.obj [("b", Json.num 1)])] "parameters").getD
            (.obj []),
          jGetD evBothSample "timestamp" (.str "")⟩ :=
  (function_shape_wins_over_apiPath evBothSample
    [("function", Json.str "f1"), ("apiPath", Json.str "/p1"),
      ("requestBody", Json.obj [("b", Json.num 1)])]
    (Json.str "f1") (Json.str "/p1") rfl rfl rfl rfl rfl).1

theorem convertGT_ok (xs : List Json) :
    ∀ acc, (∀ x ∈ xs, isDict x = true) →
      convertGT xs acc = .ok (acc ++ xs.map fun x => ⟨jGetD x "tool_name" (.str "")⟩) := by
  induction xs with
  | nil => intro acc _; simp [convertGT]
  | cons x rest ih =>
      intro acc h
      have hx : isDict x = true := h x (by simp)
      rcases x with _ | b | n | sv | el | kvs <;> simp [isDict] at hx
      simp [convertGT, pyGetD, jGetD,
        ih (acc ++ [⟨(lookupKV kvs "tool_name").getD (.str "")⟩])
          (fun y hy => h y (by simp [hy]))]

theorem buildParamMap_ok (ps : List Json) :
    ∀ m, (∀ p ∈ ps, isDict p = true ∧ pyHashable (jGetD p "name" .null) = true) →
      ∃ m', buildParamMap ps m = .ok m' := by
  induction ps with
  | nil => intro m _; exact ⟨m, rfl⟩
  | cons p rest ih =>
      intro m h
      obtain ⟨hd, hh⟩ := h p (by simp)
      rcases p with _ | b | n | sv | el | kvs <;> simp [isDict] at hd
      simp only [jGetD] at hh
      simpa [buildParamMap, pyGetD, hh] using
        ih _ (fun y hy => h y (by simp [hy]))

theorem convertBR_ok (xs : List Json) :
    ∀ acc, (∀ x ∈ xs, bedrockParamsOK x = true) →
      convertBR xs acc = .ok (acc ++ xs.map fun x => ⟨jGetD x "tool_name" (.str "")⟩) := by
  induction xs with
  | nil => intro acc _; simp [convertBR]
  | cons x rest ih =>
      intro acc h
      have hx : bedrockParamsOK x = true := h x (by simp)
      rcases x with _ | b | n | sv | el | kvs <;> simp [bedrockParamsOK] at hx
      rcases hp : lookupKV kvs "parameters" with _ | pv
      · simp [convertBR, pyGetD, hp, pyIter, buildParamMap, jGetD,
          ih (acc ++ [⟨(lookupKV kvs "tool_name").getD (.str "")⟩])
            (fun y hy => h y (by simp [hy]))]
      · rw [hp] at hx
        rcases pv with _ | b | n | sv | el | pkvs <;> simp at hx
        obtain ⟨m', hm'⟩ := buildParamMap_ok el []
          (fun p hp2 => by
            have := hx p hp2
            exact ⟨this.1, this.2⟩)
        simp [convertBR, pyGetD, hp, pyIter, hm', jGetD,
          ih (acc ++ [⟨(lookupKV kvs "tool_name").getD (.str "")⟩])
            (fun y hy => h y (by simp [hy]))]

/-- Claim C7: over well-formed input lists both adapters return lists of the
same length as the input whose i-th element's `name` is the i-th record's
`tool_name` (defaulting to `""` when absent); the output is a function of the
`tool_name` bindings only, so parameter values never affect it, and the empty
input yields the empty output without error. -/
theorem adapters_forward_only_names (xs : List Json) :
    ((∀ x ∈ xs, isDict x = true) →
      convert_to_deepeval_tool_calls xs =
        .ok (xs.map fun x => ⟨jGetD x "tool_name" (.str "")⟩))
    ∧ ((∀ x ∈ xs, bedrockParamsOK x = true) →
      convert_bedrock_format_to_deepeval_tool_calls xs =
        .ok (xs.map fun x => ⟨jGetD x "tool_name" (.str "")⟩)) := by
  constructor
  · intro h1
    simpa [convert_to_deepeval_tool_calls] using convertGT_ok xs [] h1
  · intro h2
    simpa [convert_bedrock_format_to_deepeval_tool_calls] using convertBR_ok xs [] h2

theorem adapters_forward_only_names_witness :
    convert_to_deepeval_tool_calls
        [Json.obj [("tool_name", Json.str "search"),
          ("parameters", Json.obj [("q", Json.str "x")])], Json.obj []] =
      .ok ([Json.obj [("tool_name", Json.str "search"),
          ("parameters", Json.obj [("q", Json.str "x")])], Json.obj []].map
        fun x => ⟨jGetD x "tool_name" (.str "")⟩)
    ∧ convert_bedrock_format_to_deepeval_tool_calls
        [Json.obj [("tool_name", Json.str "search"),
          ("parameters", Json.arr [Json.obj [("name", Json.str "q"),
            ("type", Json.str "string"), ("value", Json.str "x")]])], Json.obj []] =
      .ok ([Json.obj [("tool_name", Json.str "search"),
          ("parameters", Json.arr [Json.obj [("name", Json.str "q"),
            ("type", Json.str "string"), ("value", Json.str "x")]])], Json.obj []].map
        fun x => ⟨jGetD x "tool_name" (.str "")⟩) :=
  ⟨(adapters_forward_only_names
      [Json.obj [("tool_name", Json.str "search"),
        ("parameters", Json.obj [("q", Json.str "x")])], Json.obj []]).1
      (by decide),
    (adapters_forward_only_names
      [Json.obj [("tool_name", Json.str "search"),
        ("parameters", Json.arr [Json.obj [("name", Json.str "q"),
          ("type", Json.str "string"), ("value", Json.str "x")]])], Json.obj []]).2
      (by decide)⟩

theorem goEvents_eq (events : List Json) :
    ∀ acc, goEvents events acc =
      match eventsMsgs events with
      | .error m => .error m
      | .ok ls => .ok (acc ++ ls) := by
  induction events with
  | nil => intro acc; simp [goEvents, eventsMsgs]
  | cons e rest ih =>
      intro acc
      rcases h : eventMsgs e with m | l
      · simp [goEvents, eventsMsgs, h]
      · rcases h2 : eventsMsgs rest with m | ls <;>
          simp [goEvents, eventsMsgs, h, h2, ih]

/-- Claim C8: the reconstructed message list is chronological.  It always
starts with the human turn and ends with the final assistant answer exactly
when the answer is truthy; in between, each event contributes its messages in
stream order, an event with an invocation and an observation contributing the
assistant-turn-with-tool-call directly before the tool-output turn, an
invocation-only event exactly the assistant turn, an observation-only event
exactly the tool-output turn, and an event without a `trace` key nothing. -/
theorem message_reconstruction_chronology :
    (∀ (q ans : Json) (events : List Json),
      convert_trace_to_messages q (.arr events) ans =
        match eventsMsgs events with
        | .error m => .error m
        | .ok core => .ok (.human (pyStr q) :: core ++
            (if pyTruthy ans then [.ai (pyStr ans) []] else [])))
    ∧ (∀ (nm t : Json) (ps : List (String × Json)),
      eventMsgs (mkTraceEvent [mkInvocIn nm ps, mkObs t]) =
        .ok [.ai "Using tool to process request"
            [(pyStr nm, ps.map fun p => (p.1, pyStr p.2))], .tool (pyStr t)])
    ∧ (∀ (nm : Json) (ps : List (String × Json)),
      eventMsgs (mkTraceEvent [mkInvocIn nm ps]) =
        .ok [.ai "Using tool to process request"
            [(pyStr nm, ps.map fun p => (p.1, pyStr p.2))]])
    ∧ (∀ t : Json, eventMsgs (mkTraceEvent [mkObs t]) = .ok [.tool (pyStr t)])
    ∧ (∀ kvs : List (String × Json), lookupKV kvs "trace" = none →
        eventMsgs (.obj kvs) = .ok []) := by
  refine ⟨?_, ?_, ?_, ?_, ?_⟩
  · intro q ans events
    rw [convert_trace_to_messages]
    simp only [pyIter]
    rw [goEvents_eq]
    rcases h : eventsMsgs events with m | ls
    · rfl
    · simp
  · intro nm t ps
    simp [mkTraceEvent, mkInvocIn, mkObs, eventMsgs, invocMsgs, obsMsgs,
      pyContains, pyGet, pyGetD, pyItems, lookupKV]
  · intro nm ps
    simp [mkTraceEvent, mkInvocIn, eventMsgs, invocMsgs, obsMsgs,
      pyContains, pyGet, pyGetD, pyItems, lookupKV]
  · intro t
    simp [mkTraceEvent, mkObs, eventMsgs, invocMsgs, obsMsgs,
      pyContains, pyGet, pyGetD, lookupKV]
  · intro kvs h
    simp [eventMsgs, pyContains, any_key_eq_isSome_lookup, h]

theorem message_reconstruction_chronology_witness :
    eventMsgs (.obj [("chunk", Json.str "bytes")]) = .ok [] :=
  message_reconstruction_chronology.2.2.2.2 [("chunk", Json.str "bytes")] rfl

/-- Claim C9: when the ground truth carries no topics (`topics` missing, so
the default `[]` is read, or present as the empty list), `evaluate_response`
raises before any scoring happens: no `MultiTurnSample` is produced and the
wrapped configuration error is surfaced to the caller. -/
theorem missing_topics_raises_before_scoring (q metadata gt : Json)
    (hgt : pyGet metadata "ground_truth" = .ok gt)
    (ht : pyGetD gt "topics" (.arr []) = .ok (.arr [])) :
    evaluate_response_sample q metadata =
      .error ("Error evaluating topic adherence: " ++
        "No topics provided in ground truth for evaluation") := by
  obtain ⟨kvs, hm⟩ := pyGet_ok_obj metadata "ground_truth" gt hgt
  subst hm
  simp only [evaluate_response_sample, evaluate_response_try, hgt, ht, pyIter]
  simp [pyGetD]

theorem missing_topics_raises_before_scoring_witness :
    evaluate_response_sample (Json.str "What is the weather?")
        (Json.obj [("ground_truth", Json.obj [("topics", Json.arr [])]),
          ("agent_response", Json.str "sunny")]) =
      .error ("Error evaluating topic adherence: " ++
        "No topics provided in ground truth for evaluation") :=
  missing_topics_raises_before_scoring (Json.str "What is the weather?")
    (Json.obj [("ground_truth", Json.obj [("topics", Json.arr [])]),
      ("agent_response", Json.str "sunny")])
    (Json.obj [("topics", Json.arr [])]) rfl rfl
